import Mathlib

/-
Verification of the CityContributor Dataset Replication & Contributor
Registry. The repository ships the React presentation layer; the core
(FastAPI server) is not part of the checked-in sources, so the core is
modelled from the specification, while the client edit logic is embedded
directly from the DatasetList component source.
-/

namespace CityContributor

/-- Modelled from the spec: lifecycle state of a dataset (spec 3, 4.4); the
server code is missing from the repository. HOSTED means the authoritative
bytes exist in storage, MIRRORED means they have been deleted and retrieval
must redirect. -/
inductive DState
  | hosted
  | mirrored
deriving DecidableEq

/-- Modelled from the spec: a dataset record of the Dataset Store (spec 3);
the server code is missing from the repository. verifiedHostCount is derived
from the Contributor Ledger (countFor), not cached here. -/
structure Dataset where
  id : Nat
  title : String
  description : String
  contentHash : String
  originalFilename : String
  state : DState
deriving DecidableEq

/-- Modelled from the spec: a Contributor Ledger entry (spec 3); the server
code is missing from the repository. The registeredAt timestamp is
descriptive only and not used by any operation, so it is omitted. -/
structure ContribEntry where
  datasetId : Nat
  name : String
  email : String
  hostLink : String
deriving DecidableEq

/-- Modelled from the spec: the persisted registry state (spec 2, 6); the
server code is missing from the repository. A dataset table in creation
order, a blob area keyed by dataset id, the contributor ledger, and a
counter generating fresh opaque identifiers. -/
structure Registry where
  nextId : Nat
  datasets : List Dataset
  blobs : List (Nat × List Nat)
  ledger : List ContribEntry
deriving DecidableEq

/-- Modelled from the spec: the error taxonomy (spec 7); the server code is
missing from the repository. -/
inductive Err
  | validationError
  | notFound
  | unavailable
deriving DecidableEq

/-- The fixed policy constant of the Threshold Policy Engine (spec 4.4). -/
def THRESHOLD : Nat := 5

def emptyRegistry : Registry := ⟨0, [], [], []⟩

/-- One step of the rolling hash over a single byte, on 64 bits. -/
def hashStep (acc b : Nat) : Nat := (acc * 131 + b + 1) % 2 ^ 64

/-- Modelled from the spec: the Content Hasher core (spec 4.1); the server
code is missing from the repository. A pure deterministic function of the
byte sequence, here a 64-bit polynomial rolling hash. -/
def hashBytes (bytes : List Nat) : Nat := bytes.foldl hashStep 5381

/-- Hexadecimal character for a value below 16. -/
def hexChar (n : Nat) : Char :=
  if n < 10 then Char.ofNat (48 + n) else Char.ofNat (87 + n)

/-- Exactly w hexadecimal characters of n, most significant first. -/
def hexDigits : Nat → Nat → List Char
  | 0, _ => []
  | w + 1, n => hexDigits w (n / 16) ++ [hexChar (n % 16)]

/-- Modelled from the spec: the Content Hasher digest (spec 4.1); the server
code is missing from the repository. A fixed-length (16 hex characters)
deterministic digest of the raw file bytes, defined for every input
including the empty byte sequence. -/
def contentHash (bytes : List Nat) : String := ⟨hexDigits 16 (hashBytes bytes)⟩

/-- Modelled from the spec: Dataset Store get (spec 4.2); the server code is
missing from the repository. -/
def findDataset (r : Registry) (id : Nat) : Option Dataset :=
  r.datasets.find? (fun d => d.id == id)

/-- Modelled from the spec: the content-addressed blob area lookup (spec 6);
the server code is missing from the repository. -/
def lookupBlob (r : Registry) (id : Nat) : Option (List Nat) :=
  (r.blobs.find? (fun b => b.1 == id)).map (fun b => b.2)

/-- Modelled from the spec: Dataset Store create (spec 4.2); the server code
is missing from the repository. Validates, assigns a fresh id, computes the
content hash, persists the bytes, writes a HOSTED record; ValidationError if
title or description is empty, or if the file bytes are empty. -/
def create (r : Registry) (title description filename : String) (bytes : List Nat) :
    Except Err (Registry × Dataset) :=
  if title = "" ∨ description = "" ∨ bytes = [] then .error .validationError
  else
    let d : Dataset := ⟨r.nextId, title, description, contentHash bytes, filename, .hosted⟩
    .ok (⟨r.nextId + 1, r.datasets ++ [d], r.blobs ++ [(r.nextId, bytes)], r.ledger⟩, d)

/-- Rewrite the dataset with the given id through f, leaving others alone. -/
def mapAt (id : Nat) (f : Dataset → Dataset) (l : List Dataset) : List Dataset :=
  l.map (fun d => if d.id == id then f d else d)

/-- Apply a partial update: a provided field replaces the old value, an
absent field keeps it. -/
def applyUpdate (t desc : Option String) (d : Dataset) : Dataset :=
  { d with title := t.getD d.title, description := desc.getD d.description }

/-- Modelled from the spec: Dataset Store update (spec 4.2); the server code
is missing from the repository. Partial update of title and description;
NotFound if the id is unknown; a no-op if neither field is provided. -/
def update (r : Registry) (id : Nat) (t desc : Option String) :
    Except Err (Registry × Dataset) :=
  match findDataset r id with
  | none => .error .notFound
  | some d =>
      .ok (⟨r.nextId, mapAt id (applyUpdate t desc) r.datasets, r.blobs, r.ledger⟩,
        applyUpdate t desc d)

/-- Modelled from the spec: Dataset Store delete (spec 4.2); the server code
is missing from the repository. Removes the record and any stored bytes;
missing bytes are not an error; NotFound if the record does not exist. -/
def delete (r : Registry) (id : Nat) : Except Err Registry :=
  match findDataset r id with
  | none => .error .notFound
  | some _ =>
      .ok ⟨r.nextId, r.datasets.filter (fun d => d.id != id),
        r.blobs.filter (fun b => b.1 != id), r.ledger⟩

/-- Set the lifecycle state of a record to MIRRORED. -/
def setMirrored (d : Dataset) : Dataset :=
  { d with state := .mirrored }

/-- Modelled from the spec: Dataset Store markMirrored (spec 4.2); the
server code is missing from the repository. Internal-only transition that
deletes the stored bytes and sets the state to MIRRORED; a no-op if already
MIRRORED. -/
def markMirrored (r : Registry) (id : Nat) : Registry :=
  ⟨r.nextId, mapAt id setMirrored r.datasets,
    r.blobs.filter (fun b => b.1 != id), r.ledger⟩

/-- Modelled from the spec: Dataset Store fetchBytes (spec 4.2); the server
code is missing from the repository. Returns the authoritative bytes only
while HOSTED, and Absent (none) otherwise. -/
def fetchBytes (r : Registry) (id : Nat) : Option (List Nat) :=
  match findDataset r id with
  | some d => if d.state == DState.hosted then lookupBlob r id else none
  | none => none

/-- The duplicate-registration key test on a ledger entry (spec 4.3). -/
def entryMatches (id : Nat) (email hostLink : String) (e : ContribEntry) : Bool :=
  e.datasetId == id && e.email == email && e.hostLink == hostLink

/-- Whether the ledger already holds an entry with this key. -/
def hasEntry (r : Registry) (id : Nat) (email hostLink : String) : Bool :=
  r.ledger.any (entryMatches id email hostLink)

/-- Modelled from the spec: Contributor Ledger countFor (spec 4.3); the
server code is missing from the repository. The verified host count of a
dataset, derived from the ledger. -/
def countFor (r : Registry) (id : Nat) : Nat :=
  (r.ledger.filter (fun e => e.datasetId == id)).length

/-- Modelled from the spec: Contributor Ledger listFor (spec 4.3); the
server code is missing from the repository. -/
def listFor (r : Registry) (id : Nat) : List ContribEntry :=
  r.ledger.filter (fun e => e.datasetId == id)

/-- How many ledger entries carry a given (datasetId, email, hostLink) key. -/
def keyCount (r : Registry) (id : Nat) (email hostLink : String) : Nat :=
  (r.ledger.filter (entryMatches id email hostLink)).length

/-- Modelled from the spec: Contributor Ledger register (spec 4.3); the
server code is missing from the repository. Checks dataset existence
(NotFound otherwise), then field presence (ValidationError otherwise), then
the duplicate key: a duplicate is a no-op returning created=false and the
current count, a fresh key inserts and returns created=true and the updated
count. -/
def register (r : Registry) (id : Nat) (name email hostLink : String) :
    Except Err (Registry × Bool × Nat) :=
  if (findDataset r id).isNone then .error .notFound
  else if name = "" ∨ email = "" ∨ hostLink = "" then .error .validationError
  else if hasEntry r id email hostLink then .ok (r, false, countFor r id)
  else
    let r' : Registry :=
      ⟨r.nextId, r.datasets, r.blobs, r.ledger ++ [⟨id, name, email, hostLink⟩]⟩
    .ok (r', true, countFor r' id)

/-- Total wrapper around register: the registry after the call, the original
registry when the call fails. -/
def registerTotal (r : Registry) (id : Nat) (name email hostLink : String) : Registry :=
  match register r id name email hostLink with
  | .ok (r', _, _) => r'
  | .error _ => r

/-- Modelled from the spec: the facade contribution operation (spec 4.3,
4.4, 5); the server code is missing from the repository. Register, read the
fresh count, and conditionally markMirrored, executed as one atomic unit per
dataset. Returns the new registry, the created flag, the count, and whether
markMirrored was invoked. -/
def contribute (r : Registry) (id : Nat) (name email hostLink : String) :
    Except Err (Registry × Bool × Nat × Bool) :=
  match register r id name email hostLink with
  | .error e => .error e
  | .ok (r', created, cnt) =>
      match findDataset r' id with
      | some d =>
          if created = true ∧ THRESHOLD ≤ cnt ∧ d.state = DState.hosted then
            .ok (markMirrored r' id, created, cnt, true)
          else
            .ok (r', created, cnt, false)
      | none => .ok (r', created, cnt, false)

/-- The outcomes of the Retrieval Router (spec 4.5). -/
inductive Resolution
  | direct (bytes : List Nat)
  | redirect (url : String)
  | notFound
  | unavailable
deriving DecidableEq

/-- Modelled from the spec: the Retrieval Router resolve (spec 4.5); the
server code is missing from the repository. The uniformly random choice is
modelled by an externally supplied natural number pick: the redirect target
is the contributor entry at index pick modulo the length of the current
contributor list. -/
def resolve (r : Registry) (id : Nat) (pick : Nat) : Resolution :=
  match findDataset r id with
  | none => .notFound
  | some d =>
      match d.state with
      | .hosted =>
          match lookupBlob r id with
          | some bytes => .direct bytes
          | none => .unavailable
      | .mirrored =>
          match (listFor r id)[pick % (listFor r id).length]? with
          | some e => .redirect e.hostLink
          | none => .unavailable

/-- Modelled from the spec: the external operations of the Registry Facade
that mutate state (spec 6); the server code is missing from the repository.
Retrieval and listing are read-only and modelled separately by resolve. -/
inductive Op
  | upload (title description filename : String) (bytes : List Nat)
  | edit (id : Nat) (title description : Option String)
  | del (id : Nat)
  | contrib (id : Nat) (name email hostLink : String)
deriving DecidableEq

/-- Run one facade operation, keeping only the resulting registry. -/
def runOp (op : Op) (r : Registry) : Except Err Registry :=
  match op with
  | .upload t d f b => (create r t d f b).map (fun p => p.1)
  | .edit id t d => (update r id t d).map (fun p => p.1)
  | .del id => delete r id
  | .contrib id n e h => (contribute r id n e h).map (fun p => p.1)

/-- Total wrapper around runOp: on failure the registry is unchanged, as the
atomicity discipline of spec 7 demands. -/
def applyOp (op : Op) (r : Registry) : Registry :=
  match runOp op r with
  | .ok r' => r'
  | .error _ => r

/-- Well-formedness used by the Router: every HOSTED record has its
authoritative bytes in the blob area (spec 3: HOSTED implies the bytes
exist in storage). -/
def WFhosted (r : Registry) : Prop :=
  ∀ d ∈ r.datasets, d.state = DState.hosted → (lookupBlob r d.id).isSome = true

instance WFhosted.dec (r : Registry) : Decidable (WFhosted r) :=
  inferInstanceAs (Decidable (∀ d ∈ r.datasets,
    d.state = DState.hosted → (lookupBlob r d.id).isSome = true))

/-- A contribution request as the client submits it (name, email, host
link) against a fixed dataset. -/
structure ContribReq where
  name : String
  email : String
  hostLink : String
deriving DecidableEq

/-- The idempotence key of a request (spec 3 invariant). -/
def reqKey (c : ContribReq) : String × String := (c.email, c.hostLink)

/-- All three fields of the request are non-empty. -/
def validReq (c : ContribReq) : Prop :=
  c.name ≠ "" ∧ c.email ≠ "" ∧ c.hostLink ≠ ""

instance validReq.dec (c : ContribReq) : Decidable (validReq c) :=
  inferInstanceAs (Decidable (c.name ≠ "" ∧ c.email ≠ "" ∧ c.hostLink ≠ ""))

/-- Run a batch of contribution requests against one dataset in the given
serialization order, counting how many times markMirrored fires. Under the
concurrency discipline of spec 5 every concurrent execution is equivalent
to one such order. -/
def runContribs (id : Nat) : Registry → List ContribReq → Registry × Nat
  | r, [] => (r, 0)
  | r, c :: cs =>
      match contribute r id c.name c.email c.hostLink with
      | .ok (r', _, _, fired) =>
          let p := runContribs id r' cs
          (p.1, (if fired then 1 else 0) + p.2)
      | .error _ => runContribs id r cs

/-- The PATCH body assembled by handleEdit in the client source
(DatasetList): the dataset id plus optional title and description fields. -/
structure EditBody where
  id : String
  title : Option String
  description : Option String
deriving DecidableEq

/-- A JavaScript prompt result: none models null (cancelled); falsy means
null or the empty string, matching the truthiness tests in handleEdit. -/
def falsy : Option String → Bool
  | none => true
  | some s => s == ""

/-- handleEdit from the client source (DatasetList component): if both
prompt results are falsy no request is issued at all; otherwise each truthy
field is put in the PATCH body and each falsy field is omitted. -/
def buildEditBody (id : String) (newTitle newDesc : Option String) : Option EditBody :=
  if falsy newTitle && falsy newDesc then none
  else
    some ⟨id,
      if falsy newTitle then none else newTitle,
      if falsy newDesc then none else newDesc⟩

/-
Helper lemmas.
-/

lemma hexDigits_length (w : Nat) : ∀ n, (hexDigits w n).length = w := by
  induction w with
  | zero => intro n; rfl
  | succ w ih => intro n; simp [hexDigits, ih]

lemma contentHash_length (b : List Nat) : (contentHash b).length = 16 := by
  show (hexDigits 16 (hashBytes b)).length = 16
  exact hexDigits_length 16 _

lemma contentHash_ne_empty (b : List Nat) : contentHash b ≠ "" := by
  intro h
  have h2 := congrArg String.length h
  rw [contentHash_length] at h2
  simp at h2

lemma create_ok_inv (r : Registry) (t dsc f : String) (b : List Nat) (r' : Registry)
    (d : Dataset) (h : create r t dsc f b = .ok (r', d)) :
    d = ⟨r.nextId, t, dsc, contentHash b, f, DState.hosted⟩ ∧
      r' = ⟨r.nextId + 1, r.datasets ++ [d], r.blobs ++ [(r.nextId, b)], r.ledger⟩ := by
  rw [create] at h
  split at h
  · exact absurd h (by simp)
  · simp only [Except.ok.injEq, Prod.mk.injEq] at h
    obtain ⟨h1, h2⟩ := h
    subst h2
    subst h1
    exact ⟨rfl, rfl⟩

lemma find?_key_filter_ne {α : Type} (key : α → Nat) (delId id : Nat) (h : id ≠ delId)
    (l : List α) :
    (l.filter (fun a => key a != delId)).find? (fun a => key a == id) =
      l.find? (fun a => key a == id) := by
  induction l with
  | nil => rfl
  | cons a l ih =>
      rw [List.filter_cons]
      by_cases hk : key a = delId
      · rw [if_neg (by simp [hk]), ih, List.find?_cons_of_neg _ (by simp [hk, Ne.symm h])]
      · rw [if_pos (by simp [hk])]
        by_cases hi : key a = id
        · rw [List.find?_cons_of_pos _ (by simp [hi]), List.find?_cons_of_pos _ (by simp [hi])]
        · rw [List.find?_cons_of_neg _ (by simp [hi]), List.find?_cons_of_neg _ (by simp [hi]),
            ih]

lemma find?_key_filter_self {α : Type} (key : α → Nat) (delId : Nat) (l : List α) :
    (l.filter (fun a => key a != delId)).find? (fun a => key a == delId) = none := by
  rw [List.find?_eq_none]
  intro a ha
  have hm := (List.mem_filter.1 ha).2
  simp at hm ⊢
  exact hm

lemma find?_mapAt (tgt id : Nat) (f : Dataset → Dataset) (hf : ∀ d, (f d).id = d.id)
    (l : List Dataset) :
    (mapAt tgt f l).find? (fun d => d.id == id) =
      (l.find? (fun d => d.id == id)).map (fun d => if d.id == tgt then f d else d) := by
  induction l with
  | nil => rfl
  | cons a l ih =>
      have hid : ((if a.id == tgt then f a else a).id) = a.id := by
        by_cases h : a.id = tgt <;> simp [h, hf]
      rw [mapAt, List.map_cons]
      by_cases h : a.id = id
      · rw [List.find?_cons_of_pos _ (by simp only [hid]; simp [h]),
          List.find?_cons_of_pos _ (by simp [h])]
        simp
      · rw [List.find?_cons_of_neg _ (by simp only [hid]; simp [h]),
          List.find?_cons_of_neg _ (by simp [h])]
        simpa [mapAt] using ih

lemma findDataset_id (r : Registry) (id : Nat) (d : Dataset)
    (h : findDataset r id = some d) : d.id = id := by
  have hp := List.find?_some h
  simpa using hp

lemma findDataset_mem (r : Registry) (id : Nat) (d : Dataset)
    (h : findDataset r id = some d) : d ∈ r.datasets :=
  List.mem_of_find?_eq_some h

lemma countFor_insert (r : Registry) (e : ContribEntry) (id : Nat) (he : e.datasetId = id) :
    countFor ⟨r.nextId, r.datasets, r.blobs, r.ledger ++ [e]⟩ id = countFor r id + 1 := by
  simp [countFor, List.filter_append, he]

lemma hasEntry_insert (r : Registry) (e : ContribEntry) (id : Nat) (em hl : String) :
    hasEntry ⟨r.nextId, r.datasets, r.blobs, r.ledger ++ [e]⟩ id em hl =
      (hasEntry r id em hl || entryMatches id em hl e) := by
  simp [hasEntry, List.any_append]

lemma hasEntry_false_of_countFor_zero (r : Registry) (id : Nat) (em hl : String)
    (h : countFor r id = 0) : hasEntry r id em hl = false := by
  rw [countFor, List.length_eq_zero] at h
  rw [hasEntry]
  apply List.any_eq_false.2
  intro e he hm
  have h1 : (fun e : ContribEntry => e.datasetId == id) e = true := by
    simp only [entryMatches, Bool.and_eq_true] at hm
    exact hm.1.1
  have h2 : e ∈ r.ledger.filter (fun e => e.datasetId == id) :=
    List.mem_filter.2 ⟨he, h1⟩
  rw [h] at h2
  exact absurd h2 (List.not_mem_nil e)

lemma register_fresh (r : Registry) (id : Nat) (n em hl : String) (d : Dataset)
    (hd : findDataset r id = some d) (hn : n ≠ "") (he : em ≠ "") (hh : hl ≠ "")
    (hdup : hasEntry r id em hl = false) :
    register r id n em hl =
      .ok (⟨r.nextId, r.datasets, r.blobs, r.ledger ++ [⟨id, n, em, hl⟩]⟩, true,
        countFor r id + 1) := by
  rw [register, if_neg (by simp [hd]), if_neg (by simp [hn, he, hh]),
    if_neg (by simp [hdup])]
  simp only [countFor_insert r ⟨id, n, em, hl⟩ id rfl]

lemma register_dup (r : Registry) (id : Nat) (n em hl : String) (d : Dataset)
    (hd : findDataset r id = some d) (hn : n ≠ "") (he : em ≠ "") (hh : hl ≠ "")
    (hdup : hasEntry r id em hl = true) :
    register r id n em hl = .ok (r, false, countFor r id) := by
  rw [register, if_neg (by simp [hd]), if_neg (by simp [hn, he, hh]),
    if_pos (by simp [hdup])]

lemma register_ok_inv (r : Registry) (id : Nat) (n em hl : String) (r₁ : Registry)
    (c : Bool) (cnt : Nat) (h : register r id n em hl = .ok (r₁, c, cnt)) :
    r₁.nextId = r.nextId ∧ r₁.datasets = r.datasets ∧ r₁.blobs = r.blobs ∧
      cnt = countFor r₁ id := by
  rw [register] at h
  split at h
  · exact absurd h (by simp)
  · split at h
    · exact absurd h (by simp)
    · split at h
      · simp only [Except.ok.injEq, Prod.mk.injEq] at h
        obtain ⟨h1, _, h3⟩ := h
        subst h1
        exact ⟨rfl, rfl, rfl, h3.symm⟩
      · simp only [Except.ok.injEq, Prod.mk.injEq] at h
        obtain ⟨h1, _, h3⟩ := h
        subst h1
        exact ⟨rfl, rfl, rfl, h3.symm⟩

lemma countFor_markMirrored (r : Registry) (tgt id : Nat) :
    countFor (markMirrored r tgt) id = countFor r id := rfl

lemma findDataset_markMirrored (r : Registry) (tgt id : Nat) :
    findDataset (markMirrored r tgt) id =
      (findDataset r id).map (fun d => if d.id == tgt then setMirrored d else d) := by
  show (mapAt tgt setMirrored r.datasets).find? (fun d => d.id == id) =
    (r.datasets.find? (fun d => d.id == id)).map
      (fun d => if d.id == tgt then setMirrored d else d)
  exact find?_mapAt tgt id setMirrored (fun d => rfl) r.datasets

lemma contribute_ok_inv (r : Registry) (id : Nat) (n em hl : String) (r₂ : Registry)
    (c : Bool) (cnt : Nat) (fired : Bool)
    (h : contribute r id n em hl = .ok (r₂, c, cnt, fired)) :
    ∃ r₁, register r id n em hl = .ok (r₁, c, cnt) ∧
      ((fired = true ∧ r₂ = markMirrored r₁ id ∧ THRESHOLD ≤ cnt) ∨
        (fired = false ∧ r₂ = r₁)) := by
  rw [contribute] at h
  split at h
  · exact absurd h (by simp)
  next r₁ created cnt₁ hreg =>
    split at h
    next d hfd =>
      split at h
      next hcond =>
        simp only [Except.ok.injEq, Prod.mk.injEq] at h
        obtain ⟨h1, h2, h3, h4⟩ := h
        subst h2
        subst h3
        subst h4
        exact ⟨r₁, hreg, Or.inl ⟨rfl, h1.symm, hcond.2.1⟩⟩
      next hcond =>
        simp only [Except.ok.injEq, Prod.mk.injEq] at h
        obtain ⟨h1, h2, h3, h4⟩ := h
        subst h2
        subst h3
        subst h4
        exact ⟨r₁, hreg, Or.inr ⟨rfl, h1.symm⟩⟩
    next hfd =>
      simp only [Except.ok.injEq, Prod.mk.injEq] at h
      obtain ⟨h1, h2, h3, h4⟩ := h
      subst h2
      subst h3
      subst h4
      exact ⟨r₁, hreg, Or.inr ⟨rfl, h1.symm⟩⟩

lemma update_ok_inv (r : Registry) (id : Nat) (t dsc : Option String) (r' : Registry)
    (d' : Dataset) (h : update r id t dsc = .ok (r', d')) :
    r' = ⟨r.nextId, mapAt id (applyUpdate t dsc) r.datasets, r.blobs, r.ledger⟩ := by
  rw [update] at h
  split at h
  · exact absurd h (by simp)
  · simp only [Except.ok.injEq, Prod.mk.injEq] at h
    exact h.1.symm

lemma delete_ok_inv (r : Registry) (id : Nat) (r' : Registry)
    (h : delete r id = .ok r') :
    r' = ⟨r.nextId, r.datasets.filter (fun d => d.id != id),
      r.blobs.filter (fun b => b.1 != id), r.ledger⟩ := by
  rw [delete] at h
  split at h
  · exact absurd h (by simp)
  · exact (Except.ok.inj h).symm

lemma findDataset_eq_of_datasets_eq (r₁ r₂ : Registry) (id : Nat)
    (h : r₁.datasets = r₂.datasets) : findDataset r₁ id = findDataset r₂ id := by
  simp only [findDataset, h]

lemma c1_of_state_eq (d d' : Dataset) (k : Nat) (hst : d'.state = d.state) :
    (d.state = DState.mirrored → d'.state = DState.mirrored) ∧
    (d.state = DState.hosted → d'.state = DState.mirrored → THRESHOLD ≤ k) := by
  constructor
  · intro h
    rw [hst, h]
  · intro h1 h2
    rw [hst, h1] at h2
    exact absurd h2 (by decide)

/-
Demonstration values used by the witness theorems.
-/

def demoBytes : List Nat := [7, 3, 7]

def demoReg1 : Registry :=
  match create emptyRegistry "t1" "d1" "f1" demoBytes with
  | .ok p => p.1
  | .error _ => emptyRegistry

def demoDS1 : Dataset :=
  match create emptyRegistry "t1" "d1" "f1" demoBytes with
  | .ok p => p.2
  | .error _ => ⟨0, "", "", "", "", DState.hosted⟩

def demoReg2 : Registry :=
  match create demoReg1 "t2" "d2" "f2" demoBytes with
  | .ok p => p.1
  | .error _ => emptyRegistry

def demoDS2 : Dataset :=
  match create demoReg1 "t2" "d2" "f2" demoBytes with
  | .ok p => p.2
  | .error _ => ⟨0, "", "", "", "", DState.hosted⟩

/-- C3: the content hash recorded at upload is a pure deterministic function
of the uploaded bytes alone: two uploads of identical bytes, regardless of
title, description or filename, yield datasets with distinct ids and equal
contentHash, and on every input, the empty byte sequence included, the
hasher produces a non-empty digest of fixed length 16. -/
theorem c3_content_hash (r : Registry) (t1 d1 f1 t2 d2 f2 : String) (bytes : List Nat)
    (r1 r2 : Registry) (ds1 ds2 : Dataset)
    (h1 : create r t1 d1 f1 bytes = .ok (r1, ds1))
    (h2 : create r1 t2 d2 f2 bytes = .ok (r2, ds2)) :
    ds1.id ≠ ds2.id ∧ ds1.contentHash = ds2.contentHash ∧
      ds1.contentHash = contentHash bytes ∧
      (∀ b : List Nat, (contentHash b).length = 16 ∧ contentHash b ≠ "") := by
  obtain ⟨hd1, hr1⟩ := create_ok_inv _ _ _ _ _ _ _ h1
  obtain ⟨hd2, _⟩ := create_ok_inv _ _ _ _ _ _ _ h2
  refine ⟨?_, ?_, ?_, fun b => ⟨contentHash_length b, contentHash_ne_empty b⟩⟩
  · rw [hd1, hd2, hr1]
    simp
  · rw [hd1, hd2]
  · rw [hd1]

/-- Witness for C3 at concrete inputs: two uploads of the same bytes into
the empty registry. -/
theorem c3_content_hash_witness :
    demoDS1.id ≠ demoDS2.id ∧ demoDS1.contentHash = demoDS2.contentHash ∧
      (contentHash []).length = 16 ∧ contentHash [] ≠ "" := by
  have h := c3_content_hash emptyRegistry "t1" "d1" "f1" "t2" "d2" "f2" demoBytes
    demoReg1 demoReg2 demoDS1 demoDS2 rfl rfl
  exact ⟨h.1, h.2.1, (h.2.2.2 []).1, (h.2.2.2 []).2⟩

lemma applyUpdate_none (d : Dataset) : applyUpdate none none d = d := rfl

/-- C5: register is idempotent on the (datasetId, email, hostLink) key: a
first-time registration inserts and returns created=true with the count
increased by one; a second call with the same key is a no-op on the registry
returning created=false and the current count; the two calls together leave
exactly one ledger entry with that key, so the count grows by at most 1 in
total. -/
theorem c5_register_idempotent (r : Registry) (id : Nat) (n n2 em hl : String) (d : Dataset)
    (hd : findDataset r id = some d)
    (hn : n ≠ "") (hn2 : n2 ≠ "") (he : em ≠ "") (hh : hl ≠ "")
    (hfresh : hasEntry r id em hl = false) :
    ∃ r1, register r id n em hl = .ok (r1, true, countFor r id + 1) ∧
      register r1 id n2 em hl = .ok (r1, false, countFor r1 id) ∧
      countFor r1 id = countFor r id + 1 ∧
      keyCount r1 id em hl = 1 := by
  refine ⟨⟨r.nextId, r.datasets, r.blobs, r.ledger ++ [⟨id, n, em, hl⟩]⟩,
    register_fresh r id n em hl d hd hn he hh hfresh, ?_, ?_, ?_⟩
  · refine register_dup _ id n2 em hl d ?_ hn2 he hh ?_
    · exact hd
    · rw [hasEntry_insert r ⟨id, n, em, hl⟩ id em hl]
      simp [entryMatches]
  · exact countFor_insert r ⟨id, n, em, hl⟩ id rfl
  · show ((r.ledger ++ [(⟨id, n, em, hl⟩ : ContribEntry)]).filter
      (entryMatches id em hl)).length = 1
    have h0 : r.ledger.filter (entryMatches id em hl) = [] := by
      apply List.filter_eq_nil_iff.2
      intro e he' hm
      have hany : hasEntry r id em hl = true := List.any_eq_true.2 ⟨e, he', hm⟩
      rw [hfresh] at hany
      exact absurd hany (by simp)
    rw [List.filter_append, h0]
    simp [entryMatches]

/-- Witness for C5: a first and second registration of the same contributor
key against the registry holding one freshly uploaded dataset. -/
theorem c5_register_idempotent_witness :
    ∃ r1, register demoReg1 0 "alice" "a@x" "http://a" =
        .ok (r1, true, countFor demoReg1 0 + 1) ∧
      register r1 0 "bob" "a@x" "http://a" = .ok (r1, false, countFor r1 0) ∧
      countFor r1 0 = countFor demoReg1 0 + 1 ∧
      keyCount r1 0 "a@x" "http://a" = 1 :=
  c5_register_idempotent demoReg1 0 "alice" "bob" "a@x" "http://a" demoDS1 rfl
    (by decide) (by decide) (by decide) (by decide) rfl

/-- Counterexample to C6 as stated: register with an unknown dataset id and
an empty name fails with NotFound, not ValidationError, although one of the
three fields is empty — the existence check precedes field validation, so
failing with ValidationError is not equivalent to a field being empty. -/
theorem c6_counterexample :
    ("" = "" ∨ "e@x" = "" ∨ "http://h" = "") ∧
      register emptyRegistry 0 "" "e@x" "http://h" = .error Err.notFound ∧
      Err.notFound ≠ Err.validationError :=
  ⟨Or.inl rfl, rfl, by decide⟩

/-- C6 (amended): register fails with NotFound exactly when the dataset does
not exist; when the dataset exists, it fails with ValidationError exactly
when at least one of name, email, hostLink is empty; and every failure
leaves the registry, its ledger and its count unchanged. -/
theorem c6_register_error_taxonomy (r : Registry) (id : Nat) (n em hl : String) :
    (register r id n em hl = .error Err.notFound ↔ findDataset r id = none) ∧
    (register r id n em hl = .error Err.validationError ↔
      ((findDataset r id).isSome = true ∧ (n = "" ∨ em = "" ∨ hl = ""))) ∧
    (∀ e, register r id n em hl = .error e →
      registerTotal r id n em hl = r ∧
      countFor (registerTotal r id n em hl) id = countFor r id ∧
      (registerTotal r id n em hl).ledger = r.ledger) := by
  have htot : ∀ e, register r id n em hl = .error e → registerTotal r id n em hl = r := by
    intro e he
    rw [registerTotal, he]
  rcases hfd : findDataset r id with _ | d
  · have hr : register r id n em hl = .error .notFound := by
      rw [register, if_pos (by simp [hfd])]
    refine ⟨by simp [hr, hfd], by simp [hr, hfd], fun e he => ?_⟩
    have hu := htot e he
    exact ⟨hu, by rw [hu], by rw [hu]⟩
  · by_cases hv : n = "" ∨ em = "" ∨ hl = ""
    · have hr : register r id n em hl = .error .validationError := by
        rw [register, if_neg (by simp [hfd]), if_pos hv]
      refine ⟨by simp [hr, hfd], by simp [hr, hfd, hv], fun e he => ?_⟩
      have hu := htot e he
      exact ⟨hu, by rw [hu], by rw [hu]⟩
    · push_neg at hv
      obtain ⟨hn, he, hh⟩ := hv
      by_cases hdup : hasEntry r id em hl = true
      · have hr := register_dup r id n em hl d hfd hn he hh hdup
        refine ⟨by simp [hr, hfd], ?_, fun e he' => ?_⟩
        · constructor
          · intro habs
            rw [hr] at habs
            exact absurd habs (by simp)
          · rintro ⟨_, hv2⟩
            exact absurd hv2 (by simp [hn, he, hh])
        · rw [hr] at he'
          exact absurd he' (by simp)
      · have hr := register_fresh r id n em hl d hfd hn he hh (by simpa using hdup)
        refine ⟨by simp [hr, hfd], ?_, fun e he' => ?_⟩
        · constructor
          · intro habs
            rw [hr] at habs
            exact absurd habs (by simp)
          · rintro ⟨_, hv2⟩
            exact absurd hv2 (by simp [hn, he, hh])
        · rw [hr] at he'
          exact absurd he' (by simp)

/-- Witness for C6 (amended) at concrete inputs: an unknown id fails with
NotFound, an empty name on an existing dataset fails with ValidationError,
and the failed call leaves the registry unchanged. -/
theorem c6_register_error_taxonomy_witness :
    register emptyRegistry 0 "alice" "a@x" "http://a" = .error Err.notFound ∧
      register demoReg1 0 "" "a@x" "http://a" = .error Err.validationError ∧
      registerTotal emptyRegistry 0 "alice" "a@x" "http://a" = emptyRegistry :=
  ⟨(c6_register_error_taxonomy emptyRegistry 0 "alice" "a@x" "http://a").1.mpr rfl,
    (c6_register_error_taxonomy demoReg1 0 "" "a@x" "http://a").2.1.mpr ⟨rfl, Or.inl rfl⟩,
    ((c6_register_error_taxonomy emptyRegistry 0 "alice" "a@x" "http://a").2.2
      Err.notFound
      ((c6_register_error_taxonomy emptyRegistry 0 "alice" "a@x" "http://a").1.mpr rfl)).1⟩

/-- C7: delete fails with NotFound exactly when no record with the id
exists; on an existing record, in either lifecycle state, it succeeds,
removes the record and any stored bytes, touches no other dataset or blob
and no ledger entry, and when the bytes are already absent it removes
nothing from the blob area — missing bytes are never an error. -/
theorem c7_delete (r : Registry) (id : Nat) :
    (delete r id = .error Err.notFound ↔ findDataset r id = none) ∧
    (∀ d, findDataset r id = some d →
      ∃ r', delete r id = .ok r' ∧
        findDataset r' id = none ∧
        lookupBlob r' id = none ∧
        (∀ id2, id2 ≠ id → findDataset r' id2 = findDataset r id2 ∧
          lookupBlob r' id2 = lookupBlob r id2) ∧
        (lookupBlob r id = none → r'.blobs = r.blobs) ∧
        r'.ledger = r.ledger ∧ countFor r' id = countFor r id) := by
  constructor
  · rcases hfd : findDataset r id with _ | d
    · simp [delete, hfd]
    · simp [delete, hfd]
  · intro d hfd
    refine ⟨⟨r.nextId, r.datasets.filter (fun d => d.id != id),
      r.blobs.filter (fun b => b.1 != id), r.ledger⟩, ?_, ?_, ?_, ?_, ?_, rfl, rfl⟩
    · simp [delete, hfd]
    · show (r.datasets.filter (fun d => d.id != id)).find? (fun d => d.id == id) = none
      exact find?_key_filter_self (fun d => d.id) id r.datasets
    · show ((r.blobs.filter (fun b => b.1 != id)).find? (fun b => b.1 == id)).map
        (fun b => b.2) = none
      rw [show (r.blobs.filter (fun b => b.1 != id)).find? (fun b => b.1 == id) = none from
        find?_key_filter_self (fun b => b.1) id r.blobs]
      rfl
    · intro id2 h2
      constructor
      · show (r.datasets.filter (fun d => d.id != id)).find? (fun d => d.id == id2) =
          r.datasets.find? (fun d => d.id == id2)
        exact find?_key_filter_ne (fun d => d.id) id id2 h2 r.datasets
      · show ((r.blobs.filter (fun b => b.1 != id)).find? (fun b => b.1 == id2)).map
          (fun b => b.2) = (r.blobs.find? (fun b => b.1 == id2)).map (fun b => b.2)
        rw [show (r.blobs.filter (fun b => b.1 != id)).find? (fun b => b.1 == id2) =
          r.blobs.find? (fun b => b.1 == id2) from
          find?_key_filter_ne (fun b => b.1) id id2 h2 r.blobs]
    · intro hnone
      show r.blobs.filter (fun b => b.1 != id) = r.blobs
      apply List.filter_eq_self.2
      intro b hb
      have hfind : r.blobs.find? (fun b => b.1 == id) = none :=
        Option.map_eq_none'.1 hnone
      have hb2 := List.find?_eq_none.1 hfind b hb
      simpa using hb2

/-- The registry remaining after deleting the demonstration dataset. -/
def demoDelReg : Registry :=
  match delete demoReg1 0 with
  | .ok r => r
  | .error _ => demoReg1

/-- Witness for C7: deleting from the empty registry fails with NotFound;
deleting the freshly uploaded demonstration dataset removes its record and
its bytes. -/
theorem c7_delete_witness :
    delete emptyRegistry 0 = .error Err.notFound ∧
      delete demoReg1 0 = .ok demoDelReg ∧
      findDataset demoDelReg 0 = none ∧
      lookupBlob demoDelReg 0 = none := by
  refine ⟨(c7_delete emptyRegistry 0).1.mpr rfl, ?_⟩
  obtain ⟨r', h1, h2, h3, _⟩ := (c7_delete demoReg1 0).2 demoDS1 rfl
  have hr : demoDelReg = r' := by
    unfold demoDelReg
    rw [h1]
  rw [hr]
  exact ⟨h1, h2, h3⟩

/-- C8: update is a partial edit: it fails with NotFound on an unknown id,
is a no-op when neither field is provided, and otherwise changes exactly the
provided fields, leaving id, contentHash, originalFilename, state, the
verified host count, the blobs, the ledger and every other dataset
untouched. -/
theorem c8_update_frame (r : Registry) (id : Nat) (t dsc : Option String) :
    (findDataset r id = none → update r id t dsc = .error Err.notFound) ∧
    (∀ d, findDataset r id = some d → update r id none none = .ok (r, d)) ∧
    (∀ d, findDataset r id = some d →
      ∃ r' d', update r id t dsc = .ok (r', d') ∧
        findDataset r' id = some d' ∧
        d'.id = d.id ∧ d'.contentHash = d.contentHash ∧
        d'.originalFilename = d.originalFilename ∧ d'.state = d.state ∧
        d'.title = t.getD d.title ∧ d'.description = dsc.getD d.description ∧
        countFor r' id = countFor r id ∧ lookupBlob r' id = lookupBlob r id ∧
        (∀ id2, id2 ≠ id → findDataset r' id2 = findDataset r id2) ∧
        r'.blobs = r.blobs ∧ r'.ledger = r.ledger) := by
  refine ⟨fun h => by simp [update, h], fun d hfd => ?_, fun d hfd => ?_⟩
  · have hmap : mapAt id (applyUpdate none none) r.datasets = r.datasets := by
      rw [mapAt]
      have hx : ∀ x : Dataset, (if x.id == id then applyUpdate none none x else x) = x := by
        intro x
        by_cases h : x.id == id <;> simp [h, applyUpdate_none]
      simp only [hx]
      exact List.map_id _
    simp only [update, hfd, hmap, applyUpdate_none]
  · refine ⟨⟨r.nextId, mapAt id (applyUpdate t dsc) r.datasets, r.blobs, r.ledger⟩,
      applyUpdate t dsc d, ?_, ?_, rfl, rfl, rfl, rfl, rfl, rfl, rfl, rfl, ?_, rfl, rfl⟩
    · simp only [update, hfd]
    · show (mapAt id (applyUpdate t dsc) r.datasets).find? (fun x => x.id == id) =
        some (applyUpdate t dsc d)
      rw [find?_mapAt id id (applyUpdate t dsc) (fun x => rfl) r.datasets]
      show (findDataset r id).map _ = _
      rw [hfd]
      simp [findDataset_id r id d hfd]
    · intro id2 h2
      show (mapAt id (applyUpdate t dsc) r.datasets).find? (fun x => x.id == id2) =
        findDataset r id2
      rw [find?_mapAt id id2 (applyUpdate t dsc) (fun x => rfl) r.datasets]
      rcases hfd2 : r.datasets.find? (fun x => x.id == id2) with _ | d2
      · simp [findDataset, hfd2]
      · have hd2 : d2.id = id2 := by simpa using List.find?_some hfd2
        simp [findDataset, hfd2, hd2, h2]

/-- The dataset record after editing only the title of the demonstration
dataset. -/
def demoEditDS : Dataset :=
  match update demoReg1 0 (some "Road Hazards 2024") none with
  | .ok p => p.2
  | .error _ => demoDS1

/-- Witness for C8: updating an unknown id fails; an update with neither
field is a no-op; editing only the title leaves description and contentHash
unchanged. -/
theorem c8_update_frame_witness :
    update emptyRegistry 0 none none = .error Err.notFound ∧
      update demoReg1 0 none none = .ok (demoReg1, demoDS1) ∧
      demoEditDS.description = demoDS1.description ∧
      demoEditDS.contentHash = demoDS1.contentHash := by
  refine ⟨(c8_update_frame emptyRegistry 0 none none).1 rfl,
    (c8_update_frame demoReg1 0 none none).2.1 demoDS1 rfl, ?_⟩
  obtain ⟨r', d', h1, _, _, hch, _, _, _, hdesc, _⟩ :=
    (c8_update_frame demoReg1 0 (some "Road Hazards 2024") none).2.2 demoDS1 rfl
  have hds : demoEditDS = d' := by
    unfold demoEditDS
    rw [h1]
  rw [hds]
  exact ⟨hdesc, hch⟩

/-- C9: whenever a facade operation fails, the registry is left exactly as
it was before the call: same dataset records, same verified host counts,
same blobs — no partially applied state. -/
theorem c9_error_atomicity (op : Op) (r : Registry) (e : Err)
    (h : runOp op r = .error e) :
    applyOp op r = r ∧
      ∀ id, findDataset (applyOp op r) id = findDataset r id ∧
        countFor (applyOp op r) id = countFor r id ∧
        lookupBlob (applyOp op r) id = lookupBlob r id := by
  have ha : applyOp op r = r := by rw [applyOp, h]
  exact ⟨ha, fun id => by rw [ha]; exact ⟨rfl, rfl, rfl⟩⟩

/-- Witness for C9: an upload with an empty title fails validation and
leaves the empty registry untouched. -/
theorem c9_error_atomicity_witness :
    applyOp (Op.upload "" "d" "f" [1]) emptyRegistry = emptyRegistry ∧
      countFor (applyOp (Op.upload "" "d" "f" [1]) emptyRegistry) 0 =
        countFor emptyRegistry 0 :=
  ⟨(c9_error_atomicity (Op.upload "" "d" "f" [1]) emptyRegistry Err.validationError rfl).1,
    ((c9_error_atomicity (Op.upload "" "d" "f" [1]) emptyRegistry
      Err.validationError rfl).2 0).2.1⟩

/-- C4: the Retrieval Router returns NotFound exactly when the dataset does
not exist; Direct with the authoritative bytes when HOSTED; Redirect with
the hostLink of the contributor entry selected by the random index (every
entry of the current list is selectable) when MIRRORED and the list is
non-empty; and Unavailable exactly when MIRRORED with an empty contributor
list. Well-formedness (HOSTED records have their bytes) is assumed, as
spec 3 states. -/
theorem c4_resolve (r : Registry) (id pick : Nat) (hwf : WFhosted r) :
    (resolve r id pick = .notFound ↔ findDataset r id = none) ∧
    (∀ d, findDataset r id = some d → d.state = DState.hosted →
      ∃ b, lookupBlob r id = some b ∧ resolve r id pick = .direct b) ∧
    (∀ d, findDataset r id = some d → d.state = DState.mirrored → listFor r id ≠ [] →
      ∃ e, (listFor r id)[pick % (listFor r id).length]? = some e ∧
        e ∈ listFor r id ∧ resolve r id pick = .redirect e.hostLink) ∧
    (∀ d, findDataset r id = some d → d.state = DState.mirrored →
      ∀ e ∈ listFor r id, ∃ k, resolve r id k = .redirect e.hostLink) ∧
    (resolve r id pick = .unavailable ↔
      ∃ d, findDataset r id = some d ∧ d.state = DState.mirrored ∧ listFor r id = []) := by
  have hblob : ∀ d, findDataset r id = some d → d.state = DState.hosted →
      ∃ b, lookupBlob r id = some b := by
    intro d hfd hs
    have h1 := hwf d (findDataset_mem r id d hfd) hs
    rw [findDataset_id r id d hfd] at h1
    exact Option.isSome_iff_exists.1 h1
  have hmir : ∀ d k, findDataset r id = some d → d.state = DState.mirrored →
      resolve r id k = (match (listFor r id)[k % (listFor r id).length]? with
        | some e => Resolution.redirect e.hostLink
        | none => Resolution.unavailable) := by
    intro d k hfd hs
    simp [resolve, hfd, hs]
  refine ⟨?_, ?_, ?_, ?_, ?_⟩
  · rcases hfd : findDataset r id with _ | d
    · simp [resolve, hfd]
    · rcases hs : d.state with _ | _
      · obtain ⟨b, hb⟩ := hblob d hfd hs
        simp [resolve, hfd, hs, hb]
      · rw [hmir d pick hfd hs]
        rcases hget : (listFor r id)[pick % (listFor r id).length]? with _ | e <;>
          simp [hget, hfd]
  · intro d hfd hs
    obtain ⟨b, hb⟩ := hblob d hfd hs
    exact ⟨b, hb, by simp [resolve, hfd, hs, hb]⟩
  · intro d hfd hs hne
    have hpos : 0 < (listFor r id).length := List.length_pos.2 hne
    have hlt : pick % (listFor r id).length < (listFor r id).length := Nat.mod_lt _ hpos
    refine ⟨(listFor r id)[pick % (listFor r id).length], List.getElem?_eq_getElem hlt,
      List.getElem_mem hlt, ?_⟩
    rw [hmir d pick hfd hs, List.getElem?_eq_getElem hlt]
  · intro d hfd hs e he
    obtain ⟨i, hi, hei⟩ := List.mem_iff_getElem.1 he
    refine ⟨i, ?_⟩
    rw [hmir d i hfd hs, Nat.mod_eq_of_lt hi, List.getElem?_eq_getElem hi, hei]
  · constructor
    · intro hres
      rcases hfd : findDataset r id with _ | d
      · rw [(by simp [resolve, hfd] : resolve r id pick = Resolution.notFound)] at hres
        exact absurd hres (by simp)
      · rcases hs : d.state with _ | _
        · obtain ⟨b, hb⟩ := hblob d hfd hs
          rw [(by simp [resolve, hfd, hs, hb] :
            resolve r id pick = Resolution.direct b)] at hres
          exact absurd hres (by simp)
        · rw [hmir d pick hfd hs] at hres
          rcases hget : (listFor r id)[pick % (listFor r id).length]? with _ | e
          · refine ⟨d, rfl, hs, ?_⟩
            have hlen := List.getElem?_eq_none_iff.1 hget
            rcases Nat.eq_zero_or_pos (listFor r id).length with h0 | hpos
            · exact List.eq_nil_of_length_eq_zero h0
            · exact absurd (Nat.mod_lt pick hpos) (by omega)
          · rw [hget] at hres
            exact absurd hres (by simp)
    · rintro ⟨d, hfd, hs, hemp⟩
      rw [hmir d pick hfd hs, hemp]
      rfl

/-- A registry holding one mirrored dataset with one registered contributor,
used as a witness input. -/
def demoMirReg : Registry :=
  ⟨1, [⟨0, "t", "d", contentHash demoBytes, "f", DState.mirrored⟩], [],
    [⟨0, "alice", "a@x", "http://a"⟩]⟩

/-- Witness for C4 at concrete inputs: an unknown id resolves to NotFound, a
hosted dataset resolves to its bytes, a mirrored one redirects to the
registered host link. -/
theorem c4_resolve_witness :
    resolve emptyRegistry 0 0 = Resolution.notFound ∧
      resolve demoReg1 0 3 = Resolution.direct demoBytes ∧
      resolve demoMirReg 0 5 = Resolution.redirect "http://a" := by
  refine ⟨(c4_resolve emptyRegistry 0 0 (by decide)).1.mpr rfl, ?_, ?_⟩
  · obtain ⟨b, hb, hres⟩ := (c4_resolve demoReg1 0 3 (by decide)).2.1 demoDS1 rfl rfl
    have hbe : some demoBytes = some b := by rw [← hb]; rfl
    cases hbe
    exact hres
  · obtain ⟨e, hget, _, hres⟩ := (c4_resolve demoMirReg 0 5 (by decide)).2.2.1
      ⟨0, "t", "d", contentHash demoBytes, "f", DState.mirrored⟩ rfl rfl (by decide)
    have hee : some (⟨0, "alice", "a@x", "http://a"⟩ : ContribEntry) = some e := by
      rw [← hget]
      rfl
    cases hee
    exact hres

/-- C10: in the client edit flow, a prompt answered with the empty string or
cancelled causes that field to be omitted from the PATCH body, both such
answers cause no request at all, and consequently the client can never set
a title or description to the empty string through an edit. -/
theorem c10_edit_client_omits_empty (id : String) (newTitle newDesc : Option String) :
    (buildEditBody id newTitle newDesc = none ↔
      (falsy newTitle = true ∧ falsy newDesc = true)) ∧
    ∀ b, buildEditBody id newTitle newDesc = some b →
      (falsy newTitle = true → b.title = none) ∧
      (falsy newDesc = true → b.description = none) ∧
      (∀ s, b.title = some s → s ≠ "") ∧
      (∀ s, b.description = some s → s ≠ "") := by
  have hne : ∀ o : Option String, falsy o = false → ∀ s, o = some s → s ≠ "" := by
    intro o ho s hs
    subst hs
    simp [falsy] at ho
    exact ho
  constructor
  · rw [buildEditBody]
    by_cases h1 : falsy newTitle = true <;> by_cases h2 : falsy newDesc = true <;>
      simp [h1, h2]
  · intro b hb
    rw [buildEditBody] at hb
    by_cases h1 : falsy newTitle = true <;> by_cases h2 : falsy newDesc = true <;>
      simp only [h1, h2, Bool.and_self, Bool.and_false, Bool.false_and, Bool.and_true,
        if_true, if_false, reduceCtorEq, Option.some.injEq] at hb
    · subst hb
      refine ⟨fun _ => rfl, fun h => absurd h (by simp [h2]), ?_, ?_⟩
      · intro s hs
        simp at hs
      · exact hne newDesc (by simpa using h2)
    · subst hb
      refine ⟨fun h => absurd h (by simp [h1]), fun _ => rfl, ?_, ?_⟩
      · exact hne newTitle (by simpa using h1)
      · intro s hs
        simp at hs
    · subst hb
      refine ⟨fun h => absurd h (by simp [h1]), fun h => absurd h (by simp [h2]), ?_, ?_⟩
      · exact hne newTitle (by simpa using h1)
      · exact hne newDesc (by simpa using h2)

/-- Witness for C10 at concrete inputs: an edit typing only a new title. -/
theorem c10_edit_client_witness :
    (buildEditBody "d1" (some "Road Hazards 2024") none = none ↔
      (falsy (some "Road Hazards 2024") = true ∧ falsy (none : Option String) = true)) ∧
      (falsy (none : Option String) = true →
        (EditBody.mk "d1" (some "Road Hazards 2024") none).description = none) :=
  ⟨(c10_edit_client_omits_empty "d1" (some "Road Hazards 2024") none).1,
    ((c10_edit_client_omits_empty "d1" (some "Road Hazards 2024") none).2
      ⟨"d1", some "Road Hazards 2024", none⟩ rfl).2.1⟩

/-- C1: every dataset is created in state HOSTED; across every facade
operation a MIRRORED dataset never returns to HOSTED, so the transition to
MIRRORED happens at most once in a lifetime; and whenever a step turns a
HOSTED dataset MIRRORED the verified host count has reached THRESHOLD = 5. -/
theorem c1_state_machine :
    (∀ r t dsc f b r' dnew, create r t dsc f b = .ok (r', dnew) →
      dnew.state = DState.hosted) ∧
    (∀ op r id d d', findDataset r id = some d →
      findDataset (applyOp op r) id = some d' →
      (d.state = DState.mirrored → d'.state = DState.mirrored) ∧
      (d.state = DState.hosted → d'.state = DState.mirrored →
        THRESHOLD ≤ countFor (applyOp op r) id)) := by
  constructor
  · intro r t dsc f b r' dnew h
    rw [(create_ok_inv r t dsc f b r' dnew h).1]
  · intro op r id d d' hfd hfd'
    cases op with
    | upload t dsc f b =>
        cases hc : create r t dsc f b with
        | error e =>
            have ha : applyOp (Op.upload t dsc f b) r = r := by
              simp [applyOp, runOp, hc, Except.map]
            rw [ha, hfd] at hfd'
            obtain rfl := Option.some.inj hfd'
            exact c1_of_state_eq d d _ rfl
        | ok p =>
            obtain ⟨r₂, dnew⟩ := p
            have ha : applyOp (Op.upload t dsc f b) r = r₂ := by
              simp [applyOp, runOp, hc, Except.map]
            obtain ⟨-, hr2⟩ := create_ok_inv r t dsc f b r₂ dnew hc
            have hfd0 : r.datasets.find? (fun x => x.id == id) = some d := hfd
            have hfd2 : findDataset r₂ id = some d := by
              rw [hr2]
              show (r.datasets ++ [dnew]).find? (fun x => x.id == id) = some d
              rw [List.find?_append, hfd0]
              rfl
            rw [ha, hfd2] at hfd'
            obtain rfl := Option.some.inj hfd'
            exact c1_of_state_eq d d _ rfl
    | edit id₀ t dsc =>
        cases hc : update r id₀ t dsc with
        | error e =>
            have ha : applyOp (Op.edit id₀ t dsc) r = r := by
              simp [applyOp, runOp, hc, Except.map]
            rw [ha, hfd] at hfd'
            obtain rfl := Option.some.inj hfd'
            exact c1_of_state_eq d d _ rfl
        | ok p =>
            obtain ⟨r₂, d₂⟩ := p
            have ha : applyOp (Op.edit id₀ t dsc) r = r₂ := by
              simp [applyOp, runOp, hc, Except.map]
            have hr2 := update_ok_inv r id₀ t dsc r₂ d₂ hc
            have hfd0 : r.datasets.find? (fun x => x.id == id) = some d := hfd
            have hfd2 : findDataset r₂ id =
                some (if d.id == id₀ then applyUpdate t dsc d else d) := by
              rw [hr2]
              show (mapAt id₀ (applyUpdate t dsc) r.datasets).find?
                (fun x => x.id == id) = _
              rw [find?_mapAt id₀ id (applyUpdate t dsc) (fun x => rfl) r.datasets, hfd0,
                Option.map_some']
            rw [ha, hfd2] at hfd'
            obtain rfl := Option.some.inj hfd'
            apply c1_of_state_eq
            by_cases hi : d.id == id₀
            · rw [if_pos hi]
              rfl
            · rw [if_neg hi]
    | del id₀ =>
        cases hc : delete r id₀ with
        | error e =>
            have ha : applyOp (Op.del id₀) r = r := by
              simp [applyOp, runOp, hc, Except.map]
            rw [ha, hfd] at hfd'
            obtain rfl := Option.some.inj hfd'
            exact c1_of_state_eq d d _ rfl
        | ok r₂ =>
            have ha : applyOp (Op.del id₀) r = r₂ := by
              simp [applyOp, runOp, hc, Except.map]
            have hr2 := delete_ok_inv r id₀ r₂ hc
            by_cases hi : id = id₀
            · subst hi
              have hnone : findDataset r₂ id = none := by
                rw [hr2]
                show (r.datasets.filter (fun x => x.id != id)).find?
                  (fun x => x.id == id) = none
                exact find?_key_filter_self (fun x => x.id) id r.datasets
              rw [ha, hnone] at hfd'
              exact absurd hfd' (by simp)
            · have heq : findDataset r₂ id = findDataset r id := by
                rw [hr2]
                show (r.datasets.filter (fun x => x.id != id₀)).find?
                  (fun x => x.id == id) = findDataset r id
                exact find?_key_filter_ne (fun x => x.id) id₀ id hi r.datasets
              rw [ha, heq, hfd] at hfd'
              obtain rfl := Option.some.inj hfd'
              exact c1_of_state_eq d d _ rfl
    | contrib id₀ n em hl =>
        cases hc : contribute r id₀ n em hl with
        | error e =>
            have ha : applyOp (Op.contrib id₀ n em hl) r = r := by
              simp [applyOp, runOp, hc, Except.map]
            rw [ha, hfd] at hfd'
            obtain rfl := Option.some.inj hfd'
            exact c1_of_state_eq d d _ rfl
        | ok p =>
            obtain ⟨r₂, c, cnt, fired⟩ := p
            have ha : applyOp (Op.contrib id₀ n em hl) r = r₂ := by
              simp [applyOp, runOp, hc, Except.map]
            obtain ⟨r₁, hreg, hcase⟩ := contribute_ok_inv r id₀ n em hl r₂ c cnt fired hc
            obtain ⟨-, hds, -, hcnt⟩ := register_ok_inv r id₀ n em hl r₁ c cnt hreg
            have hfd1 : findDataset r₁ id = some d := by
              rw [findDataset_eq_of_datasets_eq r₁ r id hds]
              exact hfd
            rcases hcase with ⟨-, hr2, hth⟩ | ⟨-, hr2⟩
            · have hfd2 : findDataset r₂ id =
                  some (if d.id == id₀ then setMirrored d else d) := by
                rw [hr2, findDataset_markMirrored, hfd1, Option.map_some']
              rw [ha] at hfd' ⊢
              rw [hfd2] at hfd'
              obtain rfl := Option.some.inj hfd'
              by_cases hi : d.id == id₀
              · have hii : id = id₀ := by
                  have h1 := findDataset_id r id d hfd
                  have h2 : d.id = id₀ := by simpa using hi
                  omega
                subst hii
                rw [if_pos hi]
                constructor
                · intro h
                  rfl
                · intro h1 h2
                  rw [hr2, countFor_markMirrored, ← hcnt]
                  exact hth
              · rw [if_neg hi]
                exact c1_of_state_eq d d _ rfl
            · have heq : findDataset r₂ id = some d := by
                rw [hr2]
                exact hfd1
              rw [ha, heq] at hfd'
              obtain rfl := Option.some.inj hfd'
              exact c1_of_state_eq d d _ rfl

/-- The dataset with id 0 after an edit step applied to the demonstration
registry. -/
def demoC1DS : Dataset :=
  match findDataset (applyOp (Op.edit 0 (some "x") none) demoReg1) 0 with
  | some d => d
  | none => demoDS1

/-- Witness for C1 at concrete inputs: the demonstration upload is created
HOSTED, and the mirrored-stays-mirrored conjunct instantiated on an edit
step of the demonstration registry. -/
theorem c1_state_machine_witness :
    demoDS1.state = DState.hosted ∧
      (demoDS1.state = DState.mirrored → demoC1DS.state = DState.mirrored) :=
  ⟨c1_state_machine.1 emptyRegistry "t1" "d1" "f1" demoBytes demoReg1 demoDS1 rfl,
    (c1_state_machine.2 (Op.edit 0 (some "x") none) demoReg1 0 demoDS1 demoC1DS
      rfl rfl).1⟩

lemma contribute_fresh (r : Registry) (id : Nat) (c : ContribReq) (d : Dataset)
    (hd : findDataset r id = some d) (hv : validReq c)
    (hdup : hasEntry r id c.email c.hostLink = false) :
    ∃ r' d' fired,
      contribute r id c.name c.email c.hostLink =
        .ok (r', true, countFor r id + 1, fired) ∧
      countFor r' id = countFor r id + 1 ∧
      findDataset r' id = some d' ∧
      ((fired = true ∧ THRESHOLD ≤ countFor r id + 1 ∧ d.state = DState.hosted ∧
          d'.state = DState.mirrored) ∨
        (fired = false ∧ ¬(THRESHOLD ≤ countFor r id + 1 ∧ d.state = DState.hosted) ∧
          d'.state = d.state)) ∧
      (∀ em hl, hasEntry r' id em hl =
        (hasEntry r id em hl || (c.email == em && c.hostLink == hl))) := by
  have hreg := register_fresh r id c.name c.email c.hostLink d hd hv.1 hv.2.1 hv.2.2 hdup
  generalize hgen : (⟨r.nextId, r.datasets, r.blobs,
    r.ledger ++ [⟨id, c.name, c.email, c.hostLink⟩]⟩ : Registry) = r₁ at hreg
  have hfd1 : findDataset r₁ id = some d := by
    rw [← hgen]
    exact hd
  have hcnt1 : countFor r₁ id = countFor r id + 1 := by
    rw [← hgen]
    exact countFor_insert r ⟨id, c.name, c.email, c.hostLink⟩ id rfl
  have hhe : ∀ em hl, hasEntry r₁ id em hl =
      (hasEntry r id em hl || (c.email == em && c.hostLink == hl)) := by
    intro em hl
    rw [← hgen, hasEntry_insert r ⟨id, c.name, c.email, c.hostLink⟩ id em hl]
    simp [entryMatches]
  by_cases hcond : THRESHOLD ≤ countFor r id + 1 ∧ d.state = DState.hosted
  · refine ⟨markMirrored r₁ id, setMirrored d, true, ?_, ?_, ?_,
      Or.inl ⟨rfl, hcond.1, hcond.2, rfl⟩, ?_⟩
    · simp only [contribute, hreg, hfd1]
      rw [if_pos ⟨True.intro, hcond.1, hcond.2⟩]
    · rw [countFor_markMirrored]
      exact hcnt1
    · rw [findDataset_markMirrored, hfd1, Option.map_some']
      rw [if_pos (by simp [findDataset_id r₁ id d hfd1])]
    · intro em hl
      exact hhe em hl
  · refine ⟨r₁, d, false, ?_, hcnt1, hfd1, Or.inr ⟨rfl, hcond, rfl⟩, hhe⟩
    simp only [contribute, hreg, hfd1]
    rw [if_neg (fun hx => hcond ⟨hx.2.1, hx.2.2⟩)]

lemma runContribs_spec (id : Nat) :
    ∀ (cs : List ContribReq) (r : Registry) (d : Dataset) (k : Nat),
      findDataset r id = some d →
      countFor r id = k →
      d.state = (if k < THRESHOLD then DState.hosted else DState.mirrored) →
      (∀ c ∈ cs, validReq c) →
      cs.Pairwise (fun a b => reqKey a ≠ reqKey b) →
      (∀ c ∈ cs, hasEntry r id c.email c.hostLink = false) →
      countFor (runContribs id r cs).1 id = k + cs.length ∧
      (runContribs id r cs).2 =
        (if THRESHOLD ≤ k then 0 else if k + cs.length < THRESHOLD then 0 else 1) ∧
      ∃ d', findDataset (runContribs id r cs).1 id = some d' ∧
        d'.state =
          (if k + cs.length < THRESHOLD then DState.hosted else DState.mirrored) := by
  intro cs
  induction cs with
  | nil =>
      intro r d k hfd hcnt hstate hval hpw hfresh
      refine ⟨by simpa [runContribs] using hcnt, ?_, ⟨d, ?_, ?_⟩⟩
      · show (0 : Nat) = _
        simp only [List.length_nil, Nat.add_zero]
        split
        · rfl
        · split
          · rfl
          · omega
      · simpa [runContribs] using hfd
      · simpa using hstate
  | cons c cs ih =>
      intro r d k hfd hcnt hstate hval hpw hfresh
      obtain ⟨r', d', fired, hceq, hcnt', hfd', hcase, hhe⟩ :=
        contribute_fresh r id c d hfd (hval c (by simp)) (hfresh c (by simp))
      rw [hcnt] at hceq hcnt' hcase
      have hrun1 : (runContribs id r (c :: cs)).1 = (runContribs id r' cs).1 := by
        simp only [runContribs, hceq]
      have hrun2 : (runContribs id r (c :: cs)).2 =
          (if fired then 1 else 0) + (runContribs id r' cs).2 := by
        simp only [runContribs, hceq]
      have hpw' := (List.pairwise_cons.1 hpw).2
      have hhd := (List.pairwise_cons.1 hpw).1
      have hval' : ∀ c' ∈ cs, validReq c' := fun c' hc' => hval c' (by simp [hc'])
      have hfresh' : ∀ c' ∈ cs, hasEntry r' id c'.email c'.hostLink = false := by
        intro c' hc'
        rw [hhe c'.email c'.hostLink]
        have h1 : hasEntry r id c'.email c'.hostLink = false := hfresh c' (by simp [hc'])
        have h2 : (c.email == c'.email && c.hostLink == c'.hostLink) = false := by
          rcases hb : (c.email == c'.email && c.hostLink == c'.hostLink) with _ | _
          · rfl
          · exfalso
            rw [Bool.and_eq_true, beq_iff_eq, beq_iff_eq] at hb
            exact hhd c' hc' (by simp [reqKey, hb.1, hb.2])
        rw [h1, h2]
        rfl
      have hds : d'.state = (if k + 1 < THRESHOLD then DState.hosted else DState.mirrored) := by
        rcases hcase with ⟨-, hth, -, hst⟩ | ⟨-, hnth, hst⟩
        · rw [hst, if_neg (by omega)]
        · rw [hst, hstate]
          rw [hstate] at hnth
          by_cases h2 : k < THRESHOLD
          · rw [if_pos h2] at hnth ⊢
            have hlt : ¬ THRESHOLD ≤ k + 1 := fun hx => hnth ⟨hx, rfl⟩
            rw [if_pos (by omega)]
          · rw [if_neg h2, if_neg (by omega)]
      obtain ⟨ihc, ihf, d'', ihfd, ihst⟩ :=
        ih r' d' (k + 1) hfd' hcnt' hds hval' hpw' hfresh'
      have harr : k + (c :: cs).length = k + 1 + cs.length := by
        simp only [List.length_cons]
        omega
      refine ⟨?_, ?_, ⟨d'', ?_, ?_⟩⟩
      · rw [hrun1, ihc, harr]
      · rcases hcase with ⟨hf, hth, hho, -⟩ | ⟨hf, hnth, -⟩
        · subst hf
          have h2 : k < THRESHOLD := by
            by_contra h2
            rw [hstate, if_neg h2] at hho
            exact absurd hho (by decide)
          rw [hrun2, ihf, harr]
          have e2 : ¬ THRESHOLD ≤ k := by omega
          have e3 : ¬ (k + 1 + cs.length < THRESHOLD) := by omega
          simp [hth, e2, e3]
        · subst hf
          by_cases h2 : k < THRESHOLD
          · have hnth2 : ¬ THRESHOLD ≤ k + 1 := by
              intro hx
              rw [hstate, if_pos h2] at hnth
              exact hnth ⟨hx, rfl⟩
            rw [hrun2, ihf, harr]
            have e2 : ¬ THRESHOLD ≤ k := by omega
            simp [hnth2, e2]
          · rw [hrun2, ihf, harr]
            have e1 : THRESHOLD ≤ k := by omega
            have e2 : THRESHOLD ≤ k + 1 := by omega
            simp [e1, e2]
      · rw [hrun1]
        exact ihfd
      · rw [harr]
        exact ihst

/-- C2: running five contribution requests with pairwise-distinct
(email, hostLink) keys and non-empty fields against a fresh HOSTED dataset,
in any serialization order — under the per-dataset atomicity discipline of
the spec every concurrent interleaving is equivalent to such an order —
ends with verifiedHostCount = 5, exactly one markMirrored invocation, and
the dataset MIRRORED. -/
theorem c2_five_contributions (r : Registry) (id : Nat) (d : Dataset)
    (cs : List ContribReq)
    (hd : findDataset r id = some d)
    (hstate : d.state = DState.hosted)
    (hcount : countFor r id = 0)
    (hlen : cs.length = 5)
    (hvalid : ∀ c ∈ cs, validReq c)
    (hdistinct : cs.Pairwise (fun a b => reqKey a ≠ reqKey b)) :
    countFor (runContribs id r cs).1 id = 5 ∧
      (runContribs id r cs).2 = 1 ∧
      ∃ d', findDataset (runContribs id r cs).1 id = some d' ∧
        d'.state = DState.mirrored := by
  have hfresh : ∀ c ∈ cs, hasEntry r id c.email c.hostLink = false :=
    fun c _ => hasEntry_false_of_countFor_zero r id c.email c.hostLink hcount
  have hst0 : d.state = (if 0 < THRESHOLD then DState.hosted else DState.mirrored) := by
    rw [hstate]
    rfl
  obtain ⟨h1, h2, d', hfd, hds⟩ :=
    runContribs_spec id cs r d 0 hd hcount hst0 hvalid hdistinct hfresh
  refine ⟨by rw [h1, hlen], ?_, d', hfd, ?_⟩
  · rw [h2, hlen]
    rfl
  · rw [hds, hlen]
    rfl

/-- The five distinct demonstration contribution requests. -/
def demoReqs : List ContribReq :=
  [⟨"a", "a@x", "ha"⟩, ⟨"b", "b@x", "hb"⟩, ⟨"c", "c@x", "hc"⟩,
    ⟨"d", "d@x", "hd"⟩, ⟨"e", "e@x", "he"⟩]

/-- The dataset with id 0 after the five demonstration contributions. -/
def demoC2DS : Dataset :=
  match findDataset (runContribs 0 demoReg1 demoReqs).1 0 with
  | some d => d
  | none => demoDS1

/-- Witness for C2 at concrete inputs: five distinct contributors against
the freshly uploaded demonstration dataset. -/
theorem c2_five_contributions_witness :
    countFor (runContribs 0 demoReg1 demoReqs).1 0 = 5 ∧
      (runContribs 0 demoReg1 demoReqs).2 = 1 ∧
      demoC2DS.state = DState.mirrored := by
  obtain ⟨h1, h2, d', hfd, hst⟩ :=
    c2_five_contributions demoReg1 0 demoDS1 demoReqs rfl rfl rfl rfl
      (by decide) (by decide)
  refine ⟨h1, h2, ?_⟩
  have hds : demoC2DS = d' := by
    unfold demoC2DS
    rw [hfd]
  rw [hds, hst]

end CityContributor
